import Mathlib

/-!
Shallow embedding of the concurrent-execution core of the
`joeycumines/go-behaviortree` library: the `Status`/`Node`/`Tick` contract,
the stateful wrappers `Async`, `Sync`, `Fork`, `Background`, `Memorize`,
and the drivers `Ticker` (plus its stop-on-failure variant) and `Manager`.

Go closures holding mutable state are modelled by explicit state passing;
a stateful leaf `Tick` is modelled as a script (list) of results that is
consumed one element per invocation, so that the number of elements
consumed equals the number of times the real logic ran.  Scheduler
nondeterminism (the arrival order of goroutine results in `Fork`, the
readiness of the buffered channel in `Async`) is an explicit parameter of
the corresponding step functions.
-/

namespace BT

/-- Status is `type Status int` in Go; the named values are Running = 1,
Success = 2, Failure = 3, and the Go zero value 0 (never one of the three)
is the initial value of status-typed variables. -/
abbrev Status := Int

/-- Running indicates that the Tick for a given Node is currently running. -/
def Running : Status := 1

/-- Success indicates that the Tick completed successfully. -/
def Success : Status := 2

/-- Failure indicates that the Tick failed to complete successfully. -/
def Failure : Status := 3

/-- Model of a Go `error` value as used by this package: a plain message
(`errors.New` / `fmt.Errorf`), the internal `errExitOnFailure` sentinel,
the `errManagerStopped` wrapper struct, or the `errManagerTicker` slice. -/
inductive GoErr where
  | msg : String → GoErr
  | exitOnFailure : GoErr
  | managerStopped : GoErr → GoErr
  | managerTicker : List GoErr → GoErr
deriving Repr

mutual

/-- Decidable equality for `GoErr` (spelled out because the inductive
nests a list). -/
def decEqGoErr : (a b : GoErr) → Decidable (a = b)
  | .msg a, .msg b =>
      if h : a = b then isTrue (by rw [h])
      else isFalse (fun he => h (GoErr.msg.inj he))
  | .exitOnFailure, .exitOnFailure => isTrue rfl
  | .managerStopped a, .managerStopped b =>
      match decEqGoErr a b with
      | isTrue h => isTrue (by rw [h])
      | isFalse h => isFalse (fun he => h (GoErr.managerStopped.inj he))
  | .managerTicker as, .managerTicker bs =>
      match decEqGoErrList as bs with
      | isTrue h => isTrue (by rw [h])
      | isFalse h => isFalse (fun he => h (GoErr.managerTicker.inj he))
  | .msg _, .exitOnFailure => isFalse (fun h => nomatch h)
  | .msg _, .managerStopped _ => isFalse (fun h => nomatch h)
  | .msg _, .managerTicker _ => isFalse (fun h => nomatch h)
  | .exitOnFailure, .msg _ => isFalse (fun h => nomatch h)
  | .exitOnFailure, .managerStopped _ => isFalse (fun h => nomatch h)
  | .exitOnFailure, .managerTicker _ => isFalse (fun h => nomatch h)
  | .managerStopped _, .msg _ => isFalse (fun h => nomatch h)
  | .managerStopped _, .exitOnFailure => isFalse (fun h => nomatch h)
  | .managerStopped _, .managerTicker _ => isFalse (fun h => nomatch h)
  | .managerTicker _, .msg _ => isFalse (fun h => nomatch h)
  | .managerTicker _, .exitOnFailure => isFalse (fun h => nomatch h)
  | .managerTicker _, .managerStopped _ => isFalse (fun h => nomatch h)

/-- Decidable equality for lists of `GoErr`. -/
def decEqGoErrList : (as bs : List GoErr) → Decidable (as = bs)
  | [], [] => isTrue rfl
  | a :: as, b :: bs =>
      match decEqGoErr a b, decEqGoErrList as bs with
      | isTrue h1, isTrue h2 => isTrue (by rw [h1, h2])
      | isFalse h1, _ => isFalse (fun he => h1 (List.cons.injEq .. ▸ he).1)
      | _, isFalse h2 => isFalse (fun he => h2 (List.cons.injEq .. ▸ he).2)
  | [], _ :: _ => isFalse (fun h => nomatch h)
  | _ :: _, [] => isFalse (fun h => nomatch h)

end

instance : DecidableEq GoErr := decEqGoErr

instance : BEq GoErr := instBEqOfDecidableEq

/-- Result of one tick: the (Status, error) pair, error modelled as
`Option GoErr` with `none` standing for Go's nil error. -/
abbrev R := Status × Option GoErr

mutual

/-- Message of an error, per each type's `Error()` method:
`errManagerTicker` joins its constituents with " | ";
`errManagerStopped` embeds its wrapped error. -/
def errString : GoErr → String
  | .msg s => s
  | .exitOnFailure => "errExitOnFailure"
  | .managerStopped w => errString w
  | .managerTicker es => String.intercalate " | " (errStringList es)

/-- Messages of a list of errors, in order. -/
def errStringList : List GoErr → List String
  | [] => []
  | e :: es => errString e :: errStringList es

end

/-- The `Is(target) bool` method dispatch used by `errors.Is`:
`errManagerStopped.Is` reports whether the target has type
`errManagerStopped`; `errManagerTicker.Is` reports whether any
constituent matches the target (via the full `errors.Is` walk, handled in
`goIs`).  Other error values have no `Is` method. -/
def isManagerStoppedType : GoErr → Bool
  | .managerStopped _ => true
  | _ => false

mutual

/-- Model of Go's `errors.Is(err, target)` restricted to this package's
error universe: try direct equality, then the dynamic `Is` method, then
unwrap (`errManagerStopped.Unwrap` returns the embedded error) and
repeat. -/
def goIs : GoErr → GoErr → Bool
  | .msg s, t => GoErr.msg s == t
  | .exitOnFailure, t => GoErr.exitOnFailure == t
  | .managerStopped w, t =>
      (GoErr.managerStopped w == t) || isManagerStoppedType t || goIs w t
  | .managerTicker es, t =>
      (GoErr.managerTicker es == t) || goIsAnyOf es t

/-- Disjunction of `goIs` over a list of errors (the `errManagerTicker.Is`
loop). -/
def goIsAnyOf : List GoErr → GoErr → Bool
  | [], _ => false
  | e :: es, t => goIs e t || goIsAnyOf es t

end

/-- Script of a stateful leaf tick: the results its real logic yields on
successive invocations.  Invoking it past the end of the script is
modelled as a failure with a distinguished message (the theorems below
only ever hypothesise invocations within the script). -/
abbrev Script := List R

/-- One invocation of a scripted tick: consume the head of the script. -/
def scriptTick : Script → R × Script
  | [] => ((Failure, some (.msg "script exhausted")), [])
  | r :: rest => (r, rest)

/-- Model of `Node.Tick` (behaviortree.go): a node is `none` (nil Node) or
`some (tick?, children)` where `tick?` is `none` for a nil tick.  A nil
node, and a node whose factory yields a nil tick, each produce
`(Failure, non-nil error)` instead of invoking any logic. -/
def nodeTick {α : Type} (n : Option (Option (α → R) × α)) : R :=
  match n with
  | none => (Failure, some (.msg "behaviortree.Node cannot tick a nil node"))
  | some (none, _) =>
      (Failure, some (.msg "behaviortree.Node cannot tick a node with a nil tick"))
  | some (some t, children) => t children

/-! ## Ticker (part_021): `NewTicker` validation, driver loop, and the
stop-on-failure variant. -/

/-- Model of the inputs `NewTicker` validates: the context (`none` = nil),
the duration in nanoseconds (`time.Duration` is an integer), and the node
(`none` = nil); the opaque payloads are irrelevant to validation. -/
structure TickerArgs where
  ctx : Option Unit
  duration : Int
  node : Option Unit
deriving DecidableEq, Repr

/-- Model of `NewTicker`'s construction path: the three panic checks in
source order, then success.  A panic is modelled as `Except.error` with
the panic message. -/
def newTicker (a : TickerArgs) : Except String Unit :=
  if a.ctx = none then .error "behaviortree.NewTicker nil context"
  else if a.duration ≤ 0 then .error "behaviortree.NewTicker duration <= 0"
  else if a.node = none then .error "behaviortree.NewTicker nil node"
  else .ok ()

/-- Model of the wrapping `NewTickerStopOnFailure` applies to the top-level
tick: an ordinary `(Failure, nil)` result has its error replaced by the
`errExitOnFailure` sentinel; every other result passes through. -/
def stopOnFailureWrap (r : R) : R :=
  match r with
  | (s, e) => if e = none ∧ s = Failure then (s, some .exitOnFailure) else (s, e)

/-- Model of `tickerCore.run`'s tick loop over a script of top-level tick
results (context cancellation and `Stop()` not firing): tick while the
error is nil, and record the first non-nil error (or `none` if the script
runs out with no error, i.e. the loop is still going). -/
def tickerRunLoop : List R → Option GoErr
  | [] => none
  | (_, e) :: rest => match e with
    | some err => some err
    | none => tickerRunLoop rest

/-- Model of `tickerStopOnFailure.Err`: the sentinel `errExitOnFailure` is
filtered back to nil; every other recorded error surfaces unchanged. -/
def stopOnFailureErr (e : Option GoErr) : Option GoErr :=
  match e with
  | some err => if err = .exitOnFailure then none else some err
  | none => none

/-! ## Async (part_019). -/

/-- One call of the Tick returned by `Async(tick)` (part_019).  The closure
state is the `done` channel: `none` when idle (nil channel) and
`some r` while a goroutine is in flight whose eventual result is `r`.
`ready` models whether the buffered result is available to the
non-blocking receive on this call.  The third output component records
whether this call spawned a goroutine. -/
def asyncTick {α : Type} (tick : α → R) (st : Option R) (children : α)
    (ready : Bool) : R × Option R × Bool :=
  match st with
  | none => ((Running, none), some (tick children), true)
  | some r => if ready then (r, none, false) else ((Running, none), some r, false)

/-- Fold of `asyncTick` over a list of calls, each supplying children and
the channel-readiness of that call; yields the per-call results, the final
state, and the total number of goroutines spawned. -/
def asyncRun {α : Type} (tick : α → R) :
    Option R → List (α × Bool) → List R × Option R × Nat
  | st, [] => ([], st, 0)
  | st, (c, b) :: rest =>
      let x := asyncTick tick st c b
      let y := asyncRun tick x.2.1 rest
      (x.1 :: y.1, y.2.1, (if x.2.2 then 1 else 0) + y.2.2)

/-! ## Fork (part_008). -/

/-- Closure state of the Tick returned by `Fork()`: the `remaining` nodes
of the current round, and the aggregate `status` and `err` (both zero
between cycles: status 0, err nil). -/
structure ForkState where
  remaining : List Script
  status : Status
  err : Option GoErr
deriving DecidableEq, Repr

/-- One mutator closure of `Fork`, exactly as drained by the calling
goroutine: given the accumulated (next-round remaining, status, err) and
one child's tick result paired with that child's advanced state, combine
any error into the " | "-joined message and force Failure, re-enqueue a
Running child, ignore a Success, and force aggregate Failure on any other
status. -/
def forkMutate (acc : List Script × Status × Option GoErr)
    (x : R × Script) : List Script × Status × Option GoErr :=
  match x with
  | ((rs, re), node2) =>
    match re with
    | some e =>
        match acc.2.2 with
        | some old =>
            (acc.1, Failure, some (.msg (errString old ++ " | " ++ errString e)))
        | none => (acc.1, Failure, some e)
    | none =>
        if rs = Running then (acc.1 ++ [node2], acc.2.1, acc.2.2)
        else if rs = Success then acc
        else (acc.1, Failure, acc.2.2)

/-- One call of the Tick returned by `Fork()` (part_008).  At cycle start
(zero aggregate state) the children are snapshotted into `remaining` and
the aggregate status set to Success.  Every remaining node is ticked (in
parallel in Go); `perm` gives the order in which their result mutators
arrive on the buffered channel, as positions into the round's list.  The
drained mutators rebuild `remaining` from the Running children; an empty
rebuild ends the cycle, returning the aggregate and resetting the state,
otherwise the call reports `(Running, nil)`. -/
def forkTick (perm : List Nat) (st : ForkState) (children : List Script) :
    R × ForkState :=
  let st1 := if st.status = 0 ∧ st.err = none then
    ForkState.mk children Success none else st
  let results := st1.remaining.map scriptTick
  let arrived := perm.filterMap (fun i => results.get? i)
  let out := arrived.foldl forkMutate ([], st1.status, st1.err)
  if out.1 = [] then ((out.2.1, out.2.2), ForkState.mk [] 0 none)
  else ((Running, none), ForkState.mk out.1 out.2.1 out.2.2)

/-! ## Background (background.go). -/

/-- The queue scan of `Background`'s returned Tick: tick the backgrounded
nodes oldest to newest; on the first result that is not `(Running, nil)`,
remove that node and stop (`Sum.inl` carries the result and the remaining
queue, nodes ticked earlier this call keeping their advanced state); if
every node reports `(Running, nil)` the scan completes (`Sum.inr` the
advanced queue). -/
def bgScan : List Script → ((R × List Script) ⊕ List Script)
  | [] => .inr []
  | j :: rest =>
      let x := scriptTick j
      if x.1.2 = none ∧ x.1.1 = Running then
        match bgScan rest with
        | .inl (res, q) => .inl (res, x.2 :: q)
        | .inr q => .inr (x.2 :: q)
      else .inl (x.1, rest)

/-- One call of the Tick returned by `Background(tick)` (background.go):
scan the queue; the first non-`(Running, nil)` result is removed and
returned immediately.  Only when the scan completes is one new task built
from the generator (`fresh` is the Tick the generator yields on this
call) and ticked once: a `(Running, nil)` first result appends it to the
queue, anything else is returned directly and never queued. -/
def backgroundStep (fresh : Script) (queue : List Script) : R × List Script :=
  match bgScan queue with
  | .inl (res, q) => (res, q)
  | .inr q =>
      let x := scriptTick fresh
      if x.1.2 ≠ none ∨ x.1.1 ≠ Running then (x.1, q)
      else ((Running, none), q ++ [x.2])

/-! ## Sync (memorize_test.go, `Sync` / `syc`). -/

/-- Shared state of one `Sync` sibling set: the wrapped sibling nodes and
the per-index last-status cache (`make([]Status, len(nodes))`, so every
cache entry starts at the Go zero value 0).  A sibling is `none` for a
nil Node, `some none` for a node whose expansion yields a nil tick, and
`some (some script)` for a real scripted tick.  Calls are single-threaded
here, so the shared mutex is elided. -/
structure Syc where
  nodes : List (Option (Option Script))
  statuses : List Status
deriving DecidableEq, Repr

/-- Model of `syc.running`: whether any cached status is Running. -/
def sycRunning (ss : List Status) : Bool := ss.any (fun s => s == Running)

/-- Expansion plus tick of wrapped sibling `i` (`syc.node`): a nil node or
nil tick passes through (ticking it then fails inside `Node.Tick` without
touching the cache); a sibling whose cached status is not Running while
some cached status is Running gets the disabled tick, which just replays
the cached status with a nil error and touches nothing; otherwise the
live tick runs the real logic once and stores the resulting status in the
cache. -/
def sycTickNode (s : Syc) (i : Nat) : R × Syc :=
  match s.nodes.get? i with
  | none => ((Failure, some (.msg "behaviortree.Node cannot tick a nil node")), s)
  | some none =>
      ((Failure, some (.msg "behaviortree.Node cannot tick a nil node")), s)
  | some (some none) =>
      ((Failure, some (.msg "behaviortree.Node cannot tick a node with a nil tick")), s)
  | some (some (some script)) =>
      let status := s.statuses.getD i 0
      if status ≠ Running ∧ sycRunning s.statuses then
        ((status, none), s)
      else
        let x := scriptTick script
        (x.1, Syc.mk (s.nodes.set i (some (some x.2))) (s.statuses.set i x.1.1))

/-! ## Memorize (part_014), composed with Sequence (sequence.go). -/

/-- One tick of a Memorize-wrapped child: when an override (a memorized
terminal result) is recorded it is replayed verbatim and the real logic
is not invoked (the script is untouched); otherwise the real tick runs,
and the result is recorded as the override the instant it is an error or
a non-Running status. -/
def memChildTick (sc : Script) (ov : Option R) : R × Script × Option R :=
  match ov with
  | some r => (r, sc, some r)
  | none =>
      let x := scriptTick sc
      if x.1.2 ≠ none ∨ x.1.1 ≠ Running then (x.1, x.2, some x.1)
      else (x.1, x.2, none)

/-- The `Sequence` tick (sequence.go) evaluated over Memorize-wrapped
children, threading each child's script and override left to right
starting at index `i`: an error from a child is wrapped with its index
and returned as Failure; the first Running or Failure is returned with
later children untouched; all Success yields Success. -/
def seqMem (i : Nat) : List (Script × Option R) → R × List (Script × Option R)
  | [] => ((Success, none), [])
  | (sc, ov) :: rest =>
      let x := memChildTick sc ov
      let child := (x.2.1, x.2.2)
      match x.1.2 with
      | some e =>
          ((Failure, some (.msg ("bt.Sequence encountered error with child at index "
            ++ toString i ++ ": " ++ errString e))), child :: rest)
      | none =>
          if x.1.1 = Running then ((Running, none), child :: rest)
          else if x.1.1 = Failure then ((Failure, none), child :: rest)
          else
            let y := seqMem (i + 1) rest
            (y.1, child :: y.2)

/-- Closure state of `Memorize(tick)`: the `started` flag and the per-child
overrides of the current execution (the wrapped `nodes` slice; empty when
not started, since the slice is discarded at each execution boundary). -/
structure MemState where
  started : Bool
  overrides : List (Option R)
deriving DecidableEq, Repr

/-- One call of `Memorize(Sequence)` (part_014): when not started, the
children are snapshotted and wrapped with fresh (empty) overrides and
`started` is set; the encapsulated `Sequence` then runs over the wrapped
children; the instant the outer result is an error or non-Running,
`started` resets and the wrapped slice (with every override) is
discarded.  The children's own scripts persist across executions, as the
underlying nodes do in Go. -/
def memorizeSequenceStep (scripts : List Script) (st : MemState) :
    R × List Script × MemState :=
  let ovs := if st.started then st.overrides else scripts.map (fun _ => none)
  let out := seqMem 0 (scripts.zip ovs)
  let scripts2 := out.2.map Prod.fst
  let ovs2 := out.2.map Prod.snd
  if out.1.2 ≠ none ∨ out.1.1 ≠ Running then (out.1, scripts2, MemState.mk false [])
  else (out.1, scripts2, MemState.mk true ovs2)

/-- Iterated calls of `Memorize(Sequence)`, collecting the per-call
results. -/
def memRun : Nat → List Script → MemState → List R × List Script × MemState
  | 0, scripts, st => ([], scripts, st)
  | n + 1, scripts, st =>
      let x := memorizeSequenceStep scripts st
      let y := memRun n x.2.1 x.2.2
      (x.1 :: y.1, y.2.1, y.2.2)

/-! ## Manager (part_016, second revision: the bigbuff-worker based one,
which defines `ErrManagerStopped`). -/

/-- The exported `ErrManagerStopped` sentinel. -/
def ErrManagerStopped : GoErr :=
  .managerStopped (.msg "behaviortree.Manager.Add already stopped")

/-- State of the manager as far as `Add`'s error paths observe it: whether
stopping has begun (the `stop` channel is closed), the accumulated
ticker errors, and the count of registered tickers. -/
structure ManagerState where
  stopped : Bool
  errs : List GoErr
  tickers : Nat
deriving DecidableEq, Repr

/-- Model of `manager.Err`: a combined `errManagerTicker` over the
accumulated errors, or nil when none occurred. -/
def managerErr (m : ManagerState) : Option GoErr :=
  if m.errs = [] then none else some (.managerTicker m.errs)

/-- Model of `manager.Add` (part_016): a nil ticker is rejected outright;
once the manager has begun stopping the registration fails, returning
`errManagerStopped` wrapping the combined error when errors have
accumulated and the bare `ErrManagerStopped` sentinel otherwise; an
accepted ticker is registered. -/
def managerAdd (m : ManagerState) (ticker : Option Unit) :
    Except GoErr ManagerState :=
  match ticker with
  | none => .error (.msg "behaviortree.Manager.Add nil ticker")
  | some _ =>
      if m.stopped then
        match managerErr m with
        | some e => .error (.managerStopped e)
        | none => .error ErrManagerStopped
      else .ok (ManagerState.mk m.stopped m.errs (m.tickers + 1))

/-! ## Theorems for the ticker construction and node totality claims. -/

/-- Helper: while a goroutine is in flight with eventual result `r`, polls
whose receive is not ready return `(Running, nil)` (whatever children they
supply), spawn nothing, and the first ready poll returns `r` and clears
the state. -/
theorem asyncRun_pending {α : Type} (tick : α → R) (r : R) (c' c'' : α)
    (k : Nat) :
    asyncRun tick (some r) (List.replicate k (c', false) ++ [(c'', true)])
      = (List.replicate k ((Running, none) : R) ++ [r], none, 0) := by
  induction k with
  | zero => simp [asyncRun, asyncTick]
  | succ n ih =>
      rw [List.replicate_succ, List.cons_append]
      have step : asyncRun tick (some r)
          ((c', false) :: (List.replicate n (c', false) ++ [(c'', true)]))
          = (((Running, none) : R) ::
              (asyncRun tick (some r)
                (List.replicate n (c', false) ++ [(c'', true)])).1,
            (asyncRun tick (some r)
              (List.replicate n (c', false) ++ [(c'', true)])).2.1,
            0 + (asyncRun tick (some r)
              (List.replicate n (c', false) ++ [(c'', true)])).2.2) := rfl
      rw [step, ih]
      simp [List.replicate_succ]

/-- C4: for every non-nil tick, `Async` returns `(Running, nil)` on the
call that starts the wrapped computation and on every poll while it is
pending, spawns exactly one goroutine over the whole span, ignores the
children supplied on polling calls, and returns the wrapped tick's
(status, error) verbatim on exactly one call after the computation
finishes, after which the state is back to idle, ready for a fresh
spawn. -/
theorem async_single_flight {α : Type} (tick : α → R) (c c' c'' : α)
    (k : Nat) :
    asyncRun tick none
        ((c, false) :: (List.replicate k (c', false) ++ [(c'', true)]))
      = ((Running, none) :: (List.replicate k ((Running, none) : R) ++ [tick c]),
        none, 1) := by
  simp [asyncRun, asyncTick, asyncRun_pending]

/-- Counterexample for C1 as stated: two children declared in order
produce errors "e1" and "e2" in the same round, but under the goroutine
completion schedule in which the second child's result mutator arrives
first, the combined error message is "e2 | e1", not the claimed
"e1 | e2" (declaration order is not what orders the join; arrival order
is). -/
theorem fork_error_declaration_order_counterexample :
    (forkTick [1, 0] (ForkState.mk [] 0 none)
        [[(Success, some (.msg "e1"))], [(Success, some (.msg "e2"))]]).1
      = (Failure, some (.msg "e2 | e1"))
    ∧ (forkTick [1, 0] (ForkState.mk [] 0 none)
        [[(Success, some (.msg "e1"))], [(Success, some (.msg "e2"))]]).1
      ≠ (Failure, some (.msg "e1 | e2")) := by
  have h : (forkTick [1, 0] (ForkState.mk [] 0 none)
      [[(Success, some (.msg "e1"))], [(Success, some (.msg "e2"))]]).1
      = (Failure, some (.msg "e2 | e1")) := by
    simp [forkTick, forkMutate, scriptTick, errString, Running, Success, Failure]
  exact ⟨h, by rw [h]; decide⟩

/-- C1 amended: a Fork round whose two children produce errors "e1" and
"e2" returns status Failure and one combined error joining the two
messages with " | " in mutator arrival order, and the state resets for
the next cycle; the message is "e1 | e2" precisely when results arrive in
declaration order, and "e2 | e1" when they arrive reversed. -/
theorem fork_error_arrival_order (e1 e2 : String) (s1 s2 : Status) :
    forkTick [0, 1] (ForkState.mk [] 0 none)
        [[(s1, some (.msg e1))], [(s2, some (.msg e2))]]
      = ((Failure, some (.msg (e1 ++ " | " ++ e2))), ForkState.mk [] 0 none)
    ∧ forkTick [1, 0] (ForkState.mk [] 0 none)
        [[(s1, some (.msg e1))], [(s2, some (.msg e2))]]
      = ((Failure, some (.msg (e2 ++ " | " ++ e1))), ForkState.mk [] 0 none) := by
  constructor <;>
    simp [forkTick, forkMutate, scriptTick, errString]

/-- Helper: the queue scan completes when every backgrounded node reports
`(Running, nil)`, leaving every node advanced by one tick. -/
theorem bgScan_all_running (q : List Script)
    (h : ∀ s ∈ q, s.head? = some ((Running, none) : R)) :
    bgScan q = .inr (q.map List.tail) := by
  induction q with
  | nil => simp [bgScan]
  | cons j rest ih =>
      have hj := h j (by simp)
      obtain ⟨t, ht⟩ : ∃ t, j = ((Running, none) : R) :: t := by
        cases j with
        | nil => simp at hj
        | cons a t =>
            simp only [List.head?_cons, Option.some.injEq] at hj
            exact ⟨t, by rw [hj]⟩
      subst ht
      simp [bgScan, scriptTick, ih (fun s hs => h s (by simp [hs]))]

/-- Helper: the scan stops at the oldest node whose result is not
`(Running, nil)`: that node is removed, nodes before it keep their
advanced state, and nodes after it are untouched. -/
theorem bgScan_first_terminal (q1 q2 : List Script) (st : Status)
    (er : Option GoErr) (rest : Script)
    (h1 : ∀ s ∈ q1, s.head? = some ((Running, none) : R))
    (hterm : ¬(er = none ∧ st = Running)) :
    bgScan (q1 ++ ((st, er) :: rest) :: q2)
      = .inl ((st, er), q1.map List.tail ++ q2) := by
  induction q1 with
  | nil => simp [bgScan, scriptTick, hterm]
  | cons j js ih =>
      have hj := h1 j (by simp)
      obtain ⟨t, ht⟩ : ∃ t, j = ((Running, none) : R) :: t := by
        cases j with
        | nil => simp at hj
        | cons a t =>
            simp only [List.head?_cons, Option.some.injEq] at hj
            exact ⟨t, by rw [hj]⟩
      subst ht
      simp [bgScan, scriptTick, ih (fun s hs => h1 s (by simp [hs]))]

/-- C3: on every Background call the queued jobs are ticked strictly
oldest to newest; the first job returning non-Running or an error is
removed and its result returned immediately, with the later jobs left
untouched that call and the generator never consulted; only when every
queued job returns `(Running, nil)` is one task generated and ticked
once, appended when Running and otherwise returned directly. -/
theorem background_fifo (fresh ftail : Script) (q1 q2 : List Script)
    (st : Status) (er : Option GoErr) (rest : Script) (fr : R)
    (h1 : ∀ s ∈ q1, s.head? = some ((Running, none) : R))
    (hterm : ¬(er = none ∧ st = Running))
    (hf : fresh = fr :: ftail) :
    backgroundStep fresh (q1 ++ ((st, er) :: rest) :: q2)
        = ((st, er), q1.map List.tail ++ q2)
    ∧ (¬(fr.2 = none ∧ fr.1 = Running) →
        backgroundStep fresh q1 = (fr, q1.map List.tail))
    ∧ (fr = ((Running, none) : R) →
        backgroundStep fresh q1
          = ((Running, none), q1.map List.tail ++ [ftail])) := by
  refine ⟨?_, ?_, ?_⟩
  · rw [backgroundStep, bgScan_first_terminal q1 q2 st er rest h1 hterm]
  · intro hfr
    rw [backgroundStep, bgScan_all_running q1 h1, hf]
    obtain ⟨a, b⟩ := fr
    simp [scriptTick]
    intro h2 h3
    exact absurd ⟨h2, h3⟩ hfr
  · intro hfr
    rw [backgroundStep, bgScan_all_running q1 h1, hf, hfr]
    simp [scriptTick]

/-- Closed-form witness for `background_fifo`: a queue of a Running job,
then a failing job, then a quiescent one delivers the failure, advances
the first job, and leaves the last untouched; and a fully-Running queue
lets the generated task's Success pass straight through. -/
theorem background_fifo_witness :
    backgroundStep [((Success, none) : R)]
        ([[((Running, none) : R), (Running, none)]]
          ++ [((Failure, none) : R)] :: [[((Success, none) : R)]])
      = ((Failure, none), [[((Running, none) : R)], [((Success, none) : R)]])
    ∧ backgroundStep [((Success, none) : R)]
        [[((Running, none) : R), (Running, none)]]
      = ((Success, none), [[((Running, none) : R)]]) := by
  have h := background_fifo [((Success, none) : R)] []
      [[((Running, none) : R), (Running, none)]] [[((Success, none) : R)]]
      Failure none [] ((Success, none) : R)
      (by intro s hs; simp at hs; simp [hs]) (by decide) rfl
  exact ⟨by simpa using h.1, by simpa using h.2.1 (by decide)⟩

/-- C10: Background's queue only ever holds jobs last observed as
`(Running, nil)`: a newly generated task whose first tick yields a
non-nil error is returned directly and never queued even when its status
is Running, and a queued job yielding a non-nil error is removed even
when its status is Running. -/
theorem background_running_only_queue (fresh ftail : Script)
    (q1 q2 : List Script) (st : Status) (e : GoErr) (rest : Script)
    (h1 : ∀ s ∈ q1, s.head? = some ((Running, none) : R))
    (hf : fresh = (st, some e) :: ftail) :
    backgroundStep fresh q1 = ((st, some e), q1.map List.tail)
    ∧ backgroundStep fresh (q1 ++ ((Running, some e) :: rest) :: q2)
      = ((Running, some e), q1.map List.tail ++ q2) := by
  constructor
  · rw [backgroundStep, bgScan_all_running q1 h1, hf]
    simp [scriptTick]
  · rw [backgroundStep,
      bgScan_first_terminal q1 q2 Running (some e) rest h1 (by simp)]

/-- Closed-form witness for `background_running_only_queue`: a fresh task
reporting `(Running, "boom")` is returned rather than queued, and a
queued job reporting `(Running, "boom")` is dropped from the queue. -/
theorem background_running_only_queue_witness :
    backgroundStep [((Running, some (.msg "boom")) : R)]
        [[((Running, none) : R)]]
      = ((Running, some (.msg "boom")), [[]])
    ∧ backgroundStep [((Running, some (.msg "boom")) : R)]
        ([[((Running, none) : R)]] ++ [((Running, some (.msg "boom")) : R)] :: [])
      = ((Running, some (.msg "boom")), [[]]) := by
  have h := background_running_only_queue
      [((Running, some (.msg "boom")) : R)] [] [[((Running, none) : R)]] []
      Running (.msg "boom") []
      (by intro s hs; simp at hs; simp [hs]) rfl
  exact ⟨by simpa using h.1, by simpa using h.2⟩

/-- Helper: `syc.running` reports true exactly when some index's cached
status is Running. -/
theorem sycRunning_iff (ss : List Status) :
    sycRunning ss = true ↔ ∃ j, ss.get? j = some Running := by
  simp only [sycRunning, List.any_eq_true, beq_iff_eq]
  constructor
  · rintro ⟨x, hx, rfl⟩
    obtain ⟨j, hj⟩ := List.get?_of_mem hx
    exact ⟨j, hj⟩
  · rintro ⟨j, hj⟩
    exact ⟨Running, List.get?_mem hj, rfl⟩

/-- C5: expanding a Sync-wrapped index whose cached status is not Running
while some other index's cached status is Running yields a tick that
invokes no real logic and returns that index's cached status unchanged
with a nil error; the real tick runs, and its status is stored in the
cache, exactly when the index was Running or no sibling is Running. -/
theorem sync_quiescent_starved (s : Syc) (i : Nat) (script : Script)
    (hi : s.nodes.get? i = some (some (some script))) :
    ((s.statuses.getD i 0 ≠ Running ∧ (∃ j, j ≠ i ∧ s.statuses.get? j = some Running)) →
      sycTickNode s i = ((s.statuses.getD i 0, none), s))
    ∧ ((s.statuses.getD i 0 = Running ∨ (∀ j, s.statuses.get? j ≠ some Running)) →
      sycTickNode s i
        = ((scriptTick script).1,
          Syc.mk (s.nodes.set i (some (some (scriptTick script).2)))
            (s.statuses.set i (scriptTick script).1.1))) := by
  constructor
  · rintro ⟨hne, j, _, hj⟩
    have hrun : sycRunning s.statuses = true := (sycRunning_iff _).2 ⟨j, hj⟩
    simp only [sycTickNode, hi]
    rw [if_pos ⟨hne, hrun⟩]
  · intro h
    simp only [sycTickNode, hi]
    have hcond : ¬(s.statuses.getD i 0 ≠ Running ∧ sycRunning s.statuses = true) := by
      rcases h with h | h
      · exact fun hc => hc.1 h
      · rintro ⟨h1, h2⟩
        obtain ⟨j, hj⟩ := (sycRunning_iff _).1 h2
        exact h j hj
    rw [if_neg hcond]

/-- Closed-form witness for `sync_quiescent_starved`: with sibling 0
cached Running and sibling 1 cached Success, expanding sibling 1 replays
the cached Success and touches nothing. -/
theorem sync_quiescent_starved_witness :
    sycTickNode (Syc.mk [some (some [((Running, none) : R)]),
        some (some [((Success, none) : R)])] [Running, Success]) 1
      = ((Success, none),
        Syc.mk [some (some [((Running, none) : R)]),
          some (some [((Success, none) : R)])] [Running, Success]) := by
  have h := (sync_quiescent_starved
      (Syc.mk [some (some [((Running, none) : R)]),
        some (some [((Success, none) : R)])] [Running, Success]) 1
      [((Success, none) : R)] rfl).1 (by refine ⟨by decide, 0, by decide, rfl⟩)
  simpa using h

/-- Helper: unfolding of `memRun` at zero calls. -/
theorem memRun_zero (scripts : List Script) (st : MemState) :
    memRun 0 scripts st = ([], scripts, st) := rfl

/-- Helper: unfolding of `memRun` one call at a time. -/
theorem memRun_succ (n : Nat) (scripts : List Script) (st : MemState) :
    memRun (n + 1) scripts st
      = ((memorizeSequenceStep scripts st).1
          :: (memRun n (memorizeSequenceStep scripts st).2.1
            (memorizeSequenceStep scripts st).2.2).1,
        (memRun n (memorizeSequenceStep scripts st).2.1
          (memorizeSequenceStep scripts st).2.2).2.1,
        (memRun n (memorizeSequenceStep scripts st).2.1
          (memorizeSequenceStep scripts st).2.2).2.2) := rfl

/-- Helper: first call of an execution where child A's real tick succeeds
and child B's runs Running: A's Success is memorized, both scripts are
consumed once, and the execution is marked started. -/
theorem memStep_start (as bs : List R) :
    memorizeSequenceStep
        [(Success, none) :: as, (Running, none) :: bs] (MemState.mk false [])
      = ((Running, none), [as, bs],
        MemState.mk true [some (Success, none), none]) := rfl

/-- Helper: a mid-execution call: child A's memorized Success is replayed
without touching its script, and only child B's real tick runs. -/
theorem memStep_replay (as bs : List R) :
    memorizeSequenceStep [as, (Running, none) :: bs]
        (MemState.mk true [some (Success, none), none])
      = ((Running, none), [as, bs],
        MemState.mk true [some (Success, none), none]) := rfl

/-- Helper: the call on which child B's real tick fails: A is still
replayed, the outer Sequence returns Failure, and the execution state
resets (started = false, overrides discarded). -/
theorem memStep_reset (as bs : List R) :
    memorizeSequenceStep [as, (Failure, none) :: bs]
        (MemState.mk true [some (Success, none), none])
      = ((Failure, none), [as, bs], MemState.mk false []) := rfl

/-- Helper: first call of a fresh execution in which child A's real tick
returns Running: A's script is consumed again and child B is not
reached. -/
theorem memStep_fresh (as bs : List R) :
    memorizeSequenceStep [(Running, none) :: as, bs] (MemState.mk false [])
      = ((Running, none), [as, bs], MemState.mk true [none, none]) := rfl

/-- C2: under `Memorize(Sequence)` with child A succeeding at once and
child B running three times then failing, A's real logic is invoked
exactly once across the four calls of the execution — A's script loses
exactly its first element while B's loses four — every later call of the
execution replaying A's memorized Success; call 4's Failure resets the
state (started = false, overrides discarded), and the following call
begins a fresh execution that re-invokes A's real logic (its script is
consumed again). -/
theorem memorize_once_per_execution (as as2 bs : List R) :
    memRun 4
        [(Success, none) :: as,
          (Running, none) :: (Running, none) :: (Running, none)
            :: (Failure, none) :: bs]
        (MemState.mk false [])
      = ([(Running, none), (Running, none), (Running, none), (Failure, none)],
        [as, bs], MemState.mk false [])
    ∧ memRun 5
        [(Success, none) :: (Running, none) :: as2,
          (Running, none) :: (Running, none) :: (Running, none)
            :: (Failure, none) :: bs]
        (MemState.mk false [])
      = ([(Running, none), (Running, none), (Running, none), (Failure, none),
          (Running, none)],
        [as2, bs], MemState.mk true [none, none]) := by
  constructor <;>
    simp [memRun_succ, memRun_zero, memStep_start, memStep_replay,
      memStep_reset, memStep_fresh]

/-- Helper: `errors.Is` of any error against itself holds (the first
probe of the walk is direct equality). -/
theorem goIs_refl (e : GoErr) : goIs e e = true := by
  cases e <;> simp [goIs]

/-- Helper: `errManagerTicker`'s constituent scan succeeds for any member
that matches the target. -/
theorem goIsAnyOf_of_mem {es : List GoErr} {c t : GoErr} (hm : c ∈ es)
    (hc : goIs c t = true) : goIsAnyOf es t = true := by
  induction es with
  | nil => cases hm
  | cons a rest ih =>
      rcases List.mem_cons.1 hm with h | h
      · subst h; simp [goIsAnyOf, hc]
      · simp [goIsAnyOf, ih h]

/-- C6: `Add` on a manager that has begun stopping fails with an error
satisfying `errors.Is(err, ErrManagerStopped)`; when errors have already
accumulated the returned error wraps the combined `errManagerTicker`
error (so `errors.Is` also matches every constituent), and a nil ticker
argument is always rejected with an error. -/
theorem manager_add_after_stop (m : ManagerState) (hs : m.stopped = true) :
    (∃ e, managerAdd m (some ()) = .error e
      ∧ goIs e ErrManagerStopped = true
      ∧ (m.errs ≠ [] → e = .managerStopped (.managerTicker m.errs)
          ∧ ∀ c ∈ m.errs, goIs e c = true))
    ∧ managerAdd m none = .error (.msg "behaviortree.Manager.Add nil ticker") := by
  refine ⟨?_, rfl⟩
  by_cases he : m.errs = []
  · refine ⟨ErrManagerStopped, ?_, goIs_refl _, fun h => absurd he h⟩
    simp [managerAdd, hs, managerErr, he]
  · refine ⟨.managerStopped (.managerTicker m.errs), ?_, ?_, fun _ => ⟨rfl, ?_⟩⟩
    · simp [managerAdd, hs, managerErr, he]
    · simp [goIs, isManagerStoppedType, ErrManagerStopped]
    · intro c hc
      simp [goIs, goIsAnyOf_of_mem hc (goIs_refl c)]

/-- Closed-form witness for `manager_add_after_stop`, with two
accumulated errors. -/
theorem manager_add_after_stop_witness :
    (∃ e, managerAdd (ManagerState.mk true [.msg "a", .msg "b"] 0) (some ())
        = .error e
      ∧ goIs e ErrManagerStopped = true
      ∧ ((ManagerState.mk true [.msg "a", .msg "b"] 0).errs ≠ [] →
          e = .managerStopped (.managerTicker [.msg "a", .msg "b"])
          ∧ ∀ c ∈ [GoErr.msg "a", GoErr.msg "b"], goIs e c = true))
    ∧ managerAdd (ManagerState.mk true [.msg "a", .msg "b"] 0) none
      = .error (.msg "behaviortree.Manager.Add nil ticker") :=
  manager_add_after_stop (ManagerState.mk true [.msg "a", .msg "b"] 0) rfl

/-- C8: `NewTicker(ctx, duration, node)` panics if and only if ctx is nil,
duration ≤ 0, or node is nil; for every input satisfying none of these
conditions it returns a Ticker without panicking. -/
theorem newTicker_panics_iff (a : TickerArgs) :
    ((∃ e, newTicker a = .error e) ↔
      (a.ctx = none ∨ a.duration ≤ 0 ∨ a.node = none))
    ∧ ((a.ctx ≠ none ∧ ¬ a.duration ≤ 0 ∧ a.node ≠ none) →
      newTicker a = .ok ()) := by
  unfold newTicker
  by_cases h1 : a.ctx = none <;> by_cases h2 : a.duration ≤ 0 <;>
    by_cases h3 : a.node = none <;> simp [h1, h2, h3]

/-- Closed-form witness for `newTicker_panics_iff`: a 5ns duration with
non-nil context and node constructs without panicking, and a nil context
panics. -/
theorem newTicker_panics_iff_witness :
    newTicker (TickerArgs.mk (some ()) 5 (some ())) = .ok ()
    ∧ (∃ e, newTicker (TickerArgs.mk none 5 (some ())) = .error e) :=
  ⟨(newTicker_panics_iff (TickerArgs.mk (some ()) 5 (some ()))).2
      (by refine ⟨by decide, by decide, by decide⟩),
    (newTicker_panics_iff (TickerArgs.mk none 5 (some ()))).1.2
      (by exact Or.inl rfl)⟩

/-- C9: `Node.Tick` is total at the public interface: invoked on a nil
Node, or on a Node whose factory yields a nil Tick, it returns
`(Failure, non-nil error)` rather than panicking, so wrappers that tick
children receive an error result for such nodes. -/
theorem nodeTick_total_on_nil {α : Type} (cs : α) :
    nodeTick (none : Option (Option (α → R) × α))
      = (Failure, some (.msg "behaviortree.Node cannot tick a nil node"))
    ∧ nodeTick (some (none, cs))
      = (Failure,
        some (.msg "behaviortree.Node cannot tick a node with a nil tick"))
    ∧ (nodeTick (none : Option (Option (α → R) × α))).2 ≠ none
    ∧ (nodeTick (some (none, cs))).2 ≠ none := by
  refine ⟨rfl, rfl, ?_, ?_⟩ <;> simp [nodeTick]

/-- C7: a `NewTickerStopOnFailure` ticker translates a top-level
`(Failure, nil)` tick result into the internal `errExitOnFailure`
sentinel, which stops the driver loop; `Err()` maps that sentinel back to
nil, while any other non-nil error surfaces unfiltered. -/
theorem stopOnFailure_sentinel (pre post : List R) (e : GoErr)
    (hpre : ∀ r ∈ pre, r.2 = none ∧ r.1 ≠ Failure)
    (he : e ≠ .exitOnFailure) :
    stopOnFailureWrap (Failure, none) = (Failure, some .exitOnFailure)
    ∧ tickerRunLoop
        ((pre ++ (Failure, none) :: post).map stopOnFailureWrap)
      = some .exitOnFailure
    ∧ stopOnFailureErr (some .exitOnFailure) = none
    ∧ stopOnFailureErr (some e) = some e := by
  refine ⟨rfl, ?_, rfl, by simp [stopOnFailureErr, he]⟩
  induction pre with
  | nil => simp [tickerRunLoop, stopOnFailureWrap]
  | cons r rest ih =>
      obtain ⟨h2, h1⟩ := hpre r (by simp)
      have : stopOnFailureWrap r = (r.1, none) := by
        obtain ⟨s, er⟩ := r
        simp_all [stopOnFailureWrap]
      rw [List.cons_append, List.map_cons, this, show
        tickerRunLoop ((r.1, none) :: (rest ++ (Failure, none) :: post).map
          stopOnFailureWrap) = tickerRunLoop ((rest ++ (Failure, none) :: post).map
          stopOnFailureWrap) from rfl]
      exact ih (fun r hr => hpre r (by simp [hr]))

/-- Closed-form witness for `stopOnFailure_sentinel`. -/
theorem stopOnFailure_sentinel_witness :
    stopOnFailureWrap (Failure, none) = (Failure, some .exitOnFailure)
    ∧ tickerRunLoop
        (([((Running, none) : R)]
          ++ (Failure, none) :: []).map stopOnFailureWrap)
      = some .exitOnFailure
    ∧ stopOnFailureErr (some .exitOnFailure) = none
    ∧ stopOnFailureErr (some (.msg "boom")) = some (.msg "boom") :=
  stopOnFailure_sentinel [(Running, none)] [] (.msg "boom")
    (by intro r hr; simp at hr; subst hr; exact ⟨rfl, by decide⟩) (by decide)

end BT
